import Mathlib

namespace HomeworkBot

/-- Shallow embedding of the Python/JSON values the bot manipulates:
the payloads returned by `response.json()`, the homework records, and the
values of the module-level variables `status_homework` and `timestamp`. -/
inductive PyValue where
  | none
  | int (n : Int)
  | str (s : String)
  | list (items : List PyValue)
  | dict (entries : List (String × PyValue))
  deriving Repr

mutual

/-- Boolean equality on embedded Python values. -/
def PyValue.beq : PyValue → PyValue → Bool
  | .none, .none => true
  | .int a, .int b => a == b
  | .str a, .str b => a == b
  | .list xs, .list ys => beqValues xs ys
  | .dict xs, .dict ys => beqItems xs ys
  | _, _ => false

/-- Boolean equality on lists of embedded values. -/
def beqValues : List PyValue → List PyValue → Bool
  | [], [] => true
  | x :: xs, y :: ys => PyValue.beq x y && beqValues xs ys
  | _, _ => false

/-- Boolean equality on dict entry lists. -/
def beqItems : List (String × PyValue) → List (String × PyValue) → Bool
  | [], [] => true
  | (k, v) :: xs, (l, w) :: ys => k == l && PyValue.beq v w && beqItems xs ys
  | _, _ => false

end

mutual

def PyValue.beq_iff : ∀ (a b : PyValue), PyValue.beq a b = true ↔ a = b
  | .none, .none => by simp [PyValue.beq]
  | .int a, .int b => by simp [PyValue.beq]
  | .str a, .str b => by simp [PyValue.beq]
  | .list xs, .list ys => by simpa [PyValue.beq] using beqValues_iff xs ys
  | .dict xs, .dict ys => by simpa [PyValue.beq] using beqItems_iff xs ys
  | .none, .int _ | .none, .str _ | .none, .list _ | .none, .dict _ => by simp [PyValue.beq]
  | .int _, .none | .int _, .str _ | .int _, .list _ | .int _, .dict _ => by simp [PyValue.beq]
  | .str _, .none | .str _, .int _ | .str _, .list _ | .str _, .dict _ => by simp [PyValue.beq]
  | .list _, .none | .list _, .int _ | .list _, .str _ | .list _, .dict _ => by simp [PyValue.beq]
  | .dict _, .none | .dict _, .int _ | .dict _, .str _ | .dict _, .list _ => by simp [PyValue.beq]

def beqValues_iff : ∀ (xs ys : List PyValue), beqValues xs ys = true ↔ xs = ys
  | [], [] => by simp [beqValues]
  | x :: xs, y :: ys => by
      simp [beqValues, PyValue.beq_iff x y, beqValues_iff xs ys]
  | [], _ :: _ => by simp [beqValues]
  | _ :: _, [] => by simp [beqValues]

def beqItems_iff : ∀ (xs ys : List (String × PyValue)), beqItems xs ys = true ↔ xs = ys
  | [], [] => by simp [beqItems]
  | (k, v) :: xs, (l, w) :: ys => by
      simp [beqItems, PyValue.beq_iff v w, beqItems_iff xs ys, and_assoc]
  | [], _ :: _ => by simp [beqItems]
  | _ :: _, [] => by simp [beqItems]

end

instance : DecidableEq PyValue := fun a b =>
  decidable_of_iff (PyValue.beq a b = true) (PyValue.beq_iff a b)

instance {ε α : Type} [DecidableEq ε] [DecidableEq α] : DecidableEq (Except ε α)
  | .ok a, .ok b => decidable_of_iff (a = b) (by simp)
  | .error a, .error b => decidable_of_iff (a = b) (by simp)
  | .ok _, .error _ => isFalse (by simp)
  | .error _, .ok _ => isFalse (by simp)

/-- Exceptions raised by the embedded functions, mirroring the Python
exception classes used in `homework.py`. -/
inductive PyError where
  | keyError (msg : String)
  | valueError (msg : String)
  | typeError (msg : String)
  | attributeError (msg : String)
  | apiException (msg : String)
  deriving DecidableEq, Repr

/-- The `HOMEWORK_VERDICTS` dictionary of `homework.py`, as an association list
(its keys are distinct, so lookup order is irrelevant). -/
def HOMEWORK_VERDICTS : List (String × String) :=
  [("approved", "Работа проверена: ревьюеру всё понравилось. Ура!"),
   ("reviewing", "Работа взята на проверку ревьюером."),
   ("rejected", "Работа проверена: у ревьюера есть замечания.")]

/-- Python `str()` of an embedded value, as used by f-string interpolation.
Container rendering is abbreviated: no analysed code path renders a list or a
dict into user-visible text. -/
def py_str : PyValue → String
  | .none => "None"
  | .int n => toString n
  | .str s => s
  | .list _ => "[...]"
  | .dict _ => "\x7b...\x7d"

/-- Python truthiness (`if response:`). -/
def truthy : PyValue → Bool
  | .none => false
  | .int n => n != 0
  | .str s => !s.isEmpty
  | .list items => !items.isEmpty
  | .dict entries => !entries.isEmpty

/-- Python `key in s` for strings (substring test). -/
def str_in (key s : String) : Bool :=
  key.isEmpty || (s.splitOn key).length != 1

/-- Python `key in v`: key membership for dicts, element membership for lists,
substring test for strings; `TypeError` for non-iterables. -/
def py_contains (v : PyValue) (key : String) : Except PyError Bool :=
  match v with
  | .dict entries => .ok (entries.any (fun p => p.1 = key))
  | .list items => .ok (items.any (fun i => i = .str key))
  | .str s => .ok (str_in key s)
  | .none => .error (.typeError "argument of type NoneType is not iterable")
  | .int _ => .error (.typeError "argument of type int is not iterable")

/-- Python `v.get(key, default)` (and `v.get(key)` with `default = PyValue.none`):
defined for dicts, `AttributeError` otherwise. -/
def py_get (v : PyValue) (key : String) (default : PyValue) : Except PyError PyValue :=
  match v with
  | .dict entries => .ok ((entries.lookup key).getD default)
  | .none => .error (.attributeError "NoneType object has no attribute get")
  | .int _ => .error (.attributeError "int object has no attribute get")
  | .str _ => .error (.attributeError "str object has no attribute get")
  | .list _ => .error (.attributeError "list object has no attribute get")

/-- Lookup of a value in `HOMEWORK_VERDICTS`: `some verdict` exactly when the
Python tests `status in HOMEWORK_VERDICTS` succeeds, in which case
`HOMEWORK_VERDICTS[status]` is that verdict. -/
def verdict_of : PyValue → Option String
  | .str s => HOMEWORK_VERDICTS.lookup s
  | _ => Option.none

/-- Python `str(e)` of a raised exception, as interpolated into
`f'Неизвестный сбой: \x7berror\x7d'`. `str` of a `KeyError` is the `repr` of its
argument, hence the added quotes. -/
def error_str : PyError → String
  | .keyError m => "\x27" ++ m ++ "\x27"
  | .valueError m => m
  | .typeError m => m
  | .attributeError m => m
  | .apiException m => m

/-- Embedding of `check_response` (homework.py lines 87-101): checks that the
payload is a dict, that it has a `homeworks` key, and that the value there is a
list; returns that list unchanged. -/
def check_response (response : PyValue) : Except PyError (List PyValue) :=
  match response with
  | .dict entries =>
    match entries.lookup "homeworks" with
    | Option.none => .error (.keyError "Ключ \"homeworks\" отсутствует в ответе API.")
    | some (.list items) => .ok items
    | some _ => .error (.typeError "Тип данных по ключу \"homeworks\" не является списком.")
  | _ => .error (.typeError "Ответ API не является словарем.")

/-- Embedding of `parse_status` (homework.py lines 104-130). The Python global
`status_homework` is passed in explicitly and the (possibly updated) value is
returned next to the message: `.ok (message?, new status_homework)`, where the
message is `none` when the Python function returns `None`. -/
def parse_status (status_homework : PyValue) (homework : PyValue) :
    Except PyError (Option String × PyValue) :=
  match py_contains homework "homework_name" with
  | .error e => .error e
  | .ok false => .error (.keyError "В ответе API отсутствует ключ `homework_name`.")
  | .ok true =>
  match py_contains homework "status" with
  | .error e => .error e
  | .ok false => .error (.keyError "В ответе API отсутствует ключ `status`.")
  | .ok true =>
  match py_get homework "homework_name" .none with
  | .error e => .error e
  | .ok homework_name =>
  match py_get homework "status" .none with
  | .error e => .error e
  | .ok status =>
  match verdict_of status with
  | Option.none => .error (.valueError ("Обнаружен неожиданный статус: " ++ py_str status))
  | some verdict =>
    if status_homework = status then
      .ok (Option.none, status_homework)
    else
      .ok (some ("Изменился статус проверки работы \"" ++ py_str homework_name ++ "\". " ++ verdict),
           status)

/-- Embedding of `send_message` (homework.py lines 57-63). The external
Telegram sink (`bot.send_message`) is a parameter: it either delivers or raises.
The `try/except Exception` swallows any raised exception, so the function
itself always returns normally. -/
def send_message (sink : Option String → Except PyError Unit) (message : Option String) :
    Except PyError Unit :=
  match sink message with
  | .ok _ => .ok ()
  | .error _ => .ok ()

/-- Result of the `for homework in homeworks:` loop of `main` (homework.py
lines 160-162): the value of the global `status_homework` when the loop stops,
the arguments of the successive `send_message` calls (in order), and the
exception that aborted the loop, if any. -/
structure BatchResult where
  status_homework : PyValue
  sent : List (Option String)
  errored : Option PyError
  deriving DecidableEq, Repr

/-- Embedding of the record-processing loop of `main` (homework.py lines
160-162): `message = parse_status(homework); send_message(bot, message)` for
each record, stopping at the first exception (which propagates to the `except`
clause of `main`). Mutations of `status_homework` made before the exception
survive it. -/
def process_homeworks (status_homework : PyValue) : List PyValue → BatchResult
  | [] => ⟨status_homework, [], Option.none⟩
  | hw :: rest =>
    match parse_status status_homework hw with
    | .error e => ⟨status_homework, [], some e⟩
    | .ok (msg, sh2) =>
      let r := process_homeworks sh2 rest
      ⟨r.status_homework, msg :: r.sent, r.errored⟩

/-- Reference sequence of `parse_status` results over a list of records,
threading the tracked status: `.ok (messages, final status)` when every record
parses, the first exception otherwise. -/
def feed_statuses (status_homework : PyValue) :
    List PyValue → Except PyError (List (Option String) × PyValue)
  | [] => .ok ([], status_homework)
  | hw :: rest =>
    match parse_status status_homework hw with
    | .error e => .error e
    | .ok (msg, sh2) =>
      match feed_statuses sh2 rest with
      | .error e => .error e
      | .ok (msgs, shf) => .ok (msg :: msgs, shf)

/-- Mutable state of `main`'s loop (homework.py lines 144-182): the local
variables `timestamp` and `last_message`, and the global `status_homework`
read and written by `parse_status`. -/
structure LoopState where
  timestamp : PyValue
  last_message : Option String
  status_homework : PyValue
  deriving DecidableEq, Repr

/-- Outcome of one iteration of `main`'s `while True:` body: the state after
the iteration, the arguments of every `send_message` call made during it (in
order), and the exception caught by the `except Exception` clause, if one was
raised. -/
structure IterOut where
  state : LoopState
  sent : List (Option String)
  caught : Option PyError
  deriving DecidableEq, Repr

/-- Outcome of `get_api_answer` for one iteration, supplied by the
environment: either an exception (`APIException` covering non-200 responses
and transport faults, lines 66-84) or the parsed JSON payload. -/
inductive FetchResult where
  | failure (err : String)
  | success (payload : PyValue)
  deriving DecidableEq, Repr

/-- Embedding of the `except Exception as error:` clause of `main` (homework.py
lines 173-178): formats the message, sends it only when it differs from
`last_message`, and updates `last_message` in that case. `sent` holds the
`send_message` calls already made earlier in the iteration. -/
def handle_error (st : LoopState) (sent : List (Option String)) (e : PyError) : IterOut :=
  let message := "Неизвестный сбой: " ++ error_str e
  if some message = st.last_message then ⟨st, sent, some e⟩
  else ⟨{ st with last_message := some message }, sent ++ [some message], some e⟩

/-- Embedding of one iteration of `main`'s `while True:` body (homework.py
lines 152-181), with the fetch outcome supplied by the environment:
`response = get_api_answer(timestamp)`; if truthy, `check_response` and the
record loop; then `timestamp = response.get('current_date', timestamp)`; any
exception lands in `handle_error`. -/
def main_iter (st : LoopState) (fetch : FetchResult) : IterOut :=
  match fetch with
  | .failure err => handle_error st [] (.apiException err)
  | .success response =>
    if truthy response then
      match check_response response with
      | .error e => handle_error st [] e
      | .ok homeworks =>
        let b := process_homeworks st.status_homework homeworks
        let st1 := { st with status_homework := b.status_homework }
        match b.errored with
        | some e => handle_error st1 b.sent e
        | Option.none =>
          match py_get response "current_date" st.timestamp with
          | .error e => handle_error st1 b.sent e
          | .ok ts => ⟨{ st1 with timestamp := ts }, b.sent, Option.none⟩
    else
      match py_get response "current_date" st.timestamp with
      | .error e => handle_error st [] e
      | .ok ts => ⟨{ st with timestamp := ts }, [], Option.none⟩

/-- Iterated `main_iter` over a list of fetch outcomes, collecting every
`send_message` call made along the way. -/
def run_loop (st : LoopState) : List FetchResult → LoopState × List (Option String)
  | [] => (st, [])
  | f :: rest =>
    let o := main_iter st f
    let r := run_loop o.state rest
    (r.1, o.sent ++ r.2)

/-- The text `main` formats for a fetch failure with exception text `e`. -/
def failure_text (e : String) : String :=
  "Неизвестный сбой: " ++ e

/-- Consecutive deduplication of a list of messages against a running
`last_message` value: a message is kept exactly when it differs from the
previous kept message (initially `last`). -/
def dedup_consecutive (last : Option String) : List String → List String
  | [] => []
  | m :: rest =>
    if some m = last then dedup_consecutive last rest
    else m :: dedup_consecutive (some m) rest

/-- Record used in concrete instantiations: name `proj1`, status `reviewing`. -/
def c1_hw : PyValue := .dict [("homework_name", .str "proj1"), ("status", .str "reviewing")]

/-- Message produced for `c1_hw` from an unset tracked status. -/
def c1_msg : String :=
  "Изменился статус проверки работы \"proj1\". Работа взята на проверку ревьюером."

/-- A successful `py_get` means the receiver was a dict. -/
theorem py_get_ok_dict {v : PyValue} {k : String} {d x : PyValue}
    (h : py_get v k d = .ok x) : ∃ entries, v = .dict entries := by
  cases v with
  | dict entries => exact ⟨entries, rfl⟩
  | none => cases h
  | int n => cases h
  | str s => cases h
  | list l => cases h

/-- Characterization of a successful `parse_status` call: both key checks
passed, the returned tracked status is exactly the record's `status` field, it
is a recognized verdict key, and a message is returned precisely when it
differs from the previous tracked status. -/
theorem parse_status_ok {sh hw : PyValue} {m : Option String} {sh' : PyValue}
    (h : parse_status sh hw = .ok (m, sh')) :
    py_contains hw "homework_name" = .ok true ∧
    py_contains hw "status" = .ok true ∧
    py_get hw "status" .none = .ok sh' ∧
    (verdict_of sh').isSome ∧
    (m.isSome ↔ sh' ≠ sh) := by
  unfold parse_status at h
  cases h1 : py_contains hw "homework_name" with
  | error e => simp only [h1] at h; cases h
  | ok b =>
    simp only [h1] at h
    cases b with
    | false => simp at h
    | true =>
      cases h2 : py_contains hw "status" with
      | error e => simp only [h2] at h; cases h
      | ok b2 =>
        simp only [h2] at h
        cases b2 with
        | false => simp at h
        | true =>
          cases h3 : py_get hw "homework_name" .none with
          | error e => simp only [h3] at h; cases h
          | ok name =>
            simp only [h3] at h
            cases h4 : py_get hw "status" .none with
            | error e => simp only [h4] at h; cases h
            | ok status =>
              simp only [h4] at h
              cases h5 : verdict_of status with
              | none => simp only [h5] at h; cases h
              | some verdict =>
                simp only [h5] at h
                by_cases heq : sh = status
                · rw [if_pos heq] at h
                  injection h with h'
                  injection h' with hm hs
                  subst hm; subst heq; subst hs
                  simp [h5]
                · rw [if_neg heq] at h
                  injection h with h'
                  injection h' with hm hs
                  subst hs; subst hm
                  refine ⟨rfl, rfl, rfl, by simp [h5], ?_⟩
                  simp
                  exact fun hss => heq hss.symm

/-- Feeding `parse_status` a record whose `status` field equals the currently
tracked (recognized) status succeeds with no message and leaves the tracked
status unchanged. -/
theorem parse_status_dup {sh' hw2 : PyValue}
    (hc1 : py_contains hw2 "homework_name" = .ok true)
    (hc2 : py_contains hw2 "status" = .ok true)
    (hg : py_get hw2 "status" .none = .ok sh')
    (hv : (verdict_of sh').isSome) :
    parse_status sh' hw2 = .ok (Option.none, sh') := by
  obtain ⟨entries, rfl⟩ := py_get_ok_dict hg
  obtain ⟨verdict, hverd⟩ := Option.isSome_iff_exists.mp hv
  unfold parse_status
  simp only [hc1, hc2, hg, hverd]
  simp [py_get, hverd]

/-- Sequence of well-formed records all carrying the same (already tracked)
status parses to all-`none` messages with the tracked status unchanged. -/
theorem feed_statuses_same (sh' : PyValue) (l : List PyValue)
    (hl : ∀ hw2 ∈ l,
      py_contains hw2 "homework_name" = .ok true ∧
      py_contains hw2 "status" = .ok true ∧
      py_get hw2 "status" .none = .ok sh')
    (hv : (verdict_of sh').isSome) :
    feed_statuses sh' l = .ok (l.map (fun _ => Option.none), sh') := by
  induction l with
  | nil => rfl
  | cons a as ih =>
    obtain ⟨ha1, ha2, ha3⟩ := hl a (List.mem_cons_self a as)
    have hdup := parse_status_dup ha1 ha2 ha3 hv
    simp only [feed_statuses, hdup]
    rw [ih (fun x hx => hl x (List.mem_cons_of_mem a hx))]
    simp

/-- C1: a successful `parse_status` call returns a message exactly when the
record's status differs from the tracked status, and feeding records carrying
that same status any number of further times yields `none` every time, with
the tracked status settled at the record's status. -/
theorem C1_tracker_dedup (sh hw : PyValue) (m : Option String) (sh' : PyValue)
    (hws : List PyValue)
    (h : parse_status sh hw = .ok (m, sh'))
    (hsame : ∀ hw2 ∈ hws,
      py_contains hw2 "homework_name" = .ok true ∧
      py_contains hw2 "status" = .ok true ∧
      py_get hw2 "status" .none = .ok sh') :
    (m.isSome ↔ sh' ≠ sh) ∧
    py_get hw "status" .none = .ok sh' ∧
    feed_statuses sh (hw :: hws) = .ok (m :: hws.map (fun _ => Option.none), sh') := by
  obtain ⟨hc1, hc2, hg, hv, hiff⟩ := parse_status_ok h
  refine ⟨hiff, hg, ?_⟩
  simp only [feed_statuses, h, feed_statuses_same sh' hws hsame hv]

/-- Witness for C1 at a concrete input: first occurrence notifies, the two
repetitions yield `None`. -/
theorem C1_tracker_dedup_witness :
    feed_statuses PyValue.none [c1_hw, c1_hw, c1_hw] =
      .ok ([some c1_msg, Option.none, Option.none], .str "reviewing") := by
  have h := C1_tracker_dedup PyValue.none c1_hw (some c1_msg) (.str "reviewing")
    [c1_hw, c1_hw] (by decide) (by decide)
  exact h.2.2

/-- C5: a record carrying an unrecognized status makes `parse_status` raise
`ValueError` with the unexpected-status text, and the record loop of `main`
then stops with the tracked status exactly as it was (the error is raised
before the mutation of `status_homework`). -/
theorem C5_unknown_status (sh hw s : PyValue) (rest : List PyValue)
    (h1 : py_contains hw "homework_name" = .ok true)
    (h2 : py_contains hw "status" = .ok true)
    (h3 : py_get hw "status" .none = .ok s)
    (h4 : verdict_of s = Option.none) :
    parse_status sh hw = .error (.valueError ("Обнаружен неожиданный статус: " ++ py_str s)) ∧
    process_homeworks sh (hw :: rest) =
      ⟨sh, [], some (.valueError ("Обнаружен неожиданный статус: " ++ py_str s))⟩ := by
  obtain ⟨entries, rfl⟩ := py_get_ok_dict h3
  have hps : parse_status sh (.dict entries) =
      .error (.valueError ("Обнаружен неожиданный статус: " ++ py_str s)) := by
    unfold parse_status
    simp only [h1, h2, h3, h4]
    simp [py_get]
  exact ⟨hps, by simp [process_homeworks, hps]⟩

/-- Witness for C5 at a concrete input: status `archived` is rejected and the
tracked status stays `approved`. -/
theorem C5_unknown_status_witness :
    parse_status (.str "approved")
        (.dict [("homework_name", .str "proj1"), ("status", .str "archived")]) =
      .error (.valueError "Обнаружен неожиданный статус: archived") ∧
    process_homeworks (.str "approved")
        [.dict [("homework_name", .str "proj1"), ("status", .str "archived")], c1_hw] =
      ⟨.str "approved", [], some (.valueError "Обнаружен неожиданный статус: archived")⟩ := by
  have h := C5_unknown_status (.str "approved")
    (.dict [("homework_name", .str "proj1"), ("status", .str "archived")])
    (.str "archived") [c1_hw] (by decide) (by decide) (by decide) (by decide)
  exact h

/-- C8: `send_message` returns normally whatever the sink does with the
message: the `try/except Exception` containment never propagates a delivery
fault to the caller. -/
theorem C8_notify_contained (sink : Option String → Except PyError Unit)
    (message : Option String) :
    send_message sink message = .ok () := by
  unfold send_message
  cases sink message <;> rfl

/-- C9: if the records before `bad` all parse and `bad` raises, the record
loop of `main` stops at `bad`: the records of `rest` are not processed in that
iteration, and the batch outcome is independent of them. -/
theorem C9_batch_abort (sh : PyValue) (pre : List PyValue) (bad : PyValue)
    (rest : List PyValue) (sh1 : PyValue) (sent1 : List (Option String)) (e : PyError)
    (hpre : process_homeworks sh pre = ⟨sh1, sent1, Option.none⟩)
    (hbad : parse_status sh1 bad = .error e) :
    process_homeworks sh (pre ++ bad :: rest) = ⟨sh1, sent1, some e⟩ := by
  induction pre generalizing sh sent1 with
  | nil =>
    cases hpre
    simp [process_homeworks, hbad]
  | cons a as ih =>
    unfold process_homeworks at hpre
    cases hp : parse_status sh a with
    | error e2 => rw [hp] at hpre; cases hpre
    | ok pr =>
      obtain ⟨msg, sh2⟩ := pr
      rw [hp] at hpre
      simp only at hpre
      cases hr : process_homeworks sh2 as with
      | mk shr sentr er =>
        rw [hr] at hpre
        cases hpre
        have htail := ih sh2 sentr hr
        simp only [List.cons_append, process_homeworks, hp, List.append_eq, htail]

/-- Witness for C9 at a concrete input: a good record, then one missing its
`status` key, then another good record; only the first is processed. -/
theorem C9_batch_abort_witness :
    process_homeworks PyValue.none
        [c1_hw, .dict [("homework_name", .str "proj2")], c1_hw] =
      ⟨.str "reviewing", [some c1_msg],
        some (.keyError "В ответе API отсутствует ключ `status`.")⟩ := by
  have h := C9_batch_abort PyValue.none [c1_hw] (.dict [("homework_name", .str "proj2")])
    [c1_hw] (.str "reviewing") [some c1_msg]
    (.keyError "В ответе API отсутствует ключ `status`.") (by decide) (by decide)
  exact h

/-- C10: when every record of the batch parses, the record loop of `main`
calls `send_message` exactly once per record, passing exactly the
`parse_status` results — including the `None` results for unchanged statuses. -/
theorem C10_send_per_record (sh : PyValue) (hws : List PyValue)
    (msgs : List (Option String)) (shf : PyValue)
    (h : feed_statuses sh hws = .ok (msgs, shf)) :
    process_homeworks sh hws = ⟨shf, msgs, Option.none⟩ ∧ msgs.length = hws.length := by
  induction hws generalizing sh msgs with
  | nil =>
    cases h
    exact ⟨rfl, rfl⟩
  | cons a as ih =>
    unfold feed_statuses at h
    cases hp : parse_status sh a with
    | error e => rw [hp] at h; cases h
    | ok pr =>
      obtain ⟨msg, sh2⟩ := pr
      rw [hp] at h
      simp only at h
      cases hf : feed_statuses sh2 as with
      | error e => rw [hf] at h; cases h
      | ok pr2 =>
        obtain ⟨msgs2, shf2⟩ := pr2
        rw [hf] at h
        cases h
        obtain ⟨hproc, hlen⟩ := ih sh2 msgs2 hf
        refine ⟨?_, by simp [hlen]⟩
        simp [process_homeworks, hp, hproc]

/-- Witness for C10 at a concrete input: a repeated record yields two
`send_message` calls, the second with `None` as the message. -/
theorem C10_send_per_record_witness :
    process_homeworks PyValue.none [c1_hw, c1_hw] =
      ⟨.str "reviewing", [some c1_msg, Option.none], Option.none⟩ ∧
    ([some c1_msg, Option.none] : List (Option String)).length = [c1_hw, c1_hw].length := by
  have h := C10_send_per_record PyValue.none [c1_hw, c1_hw]
    [some c1_msg, Option.none] (.str "reviewing") (by decide)
  exact h

/-- Facts true of `handle_error` in both of its branches: `timestamp` and
`status_homework` are untouched and the exception is recorded as caught. -/
theorem handle_error_facts (st : LoopState) (sent : List (Option String)) (e : PyError) :
    (handle_error st sent e).state.timestamp = st.timestamp ∧
    (handle_error st sent e).state.status_homework = st.status_homework ∧
    (handle_error st sent e).caught = some e := by
  by_cases hc : some ("Неизвестный сбой: " ++ error_str e) = st.last_message <;>
    simp [handle_error, hc]

/-- Explicit form of an iteration whose fetch fails. -/
theorem main_iter_failure (st : LoopState) (e : String) :
    main_iter st (.failure e) =
      if some (failure_text e) = st.last_message
      then ⟨st, [], some (.apiException e)⟩
      else ⟨{ st with last_message := some (failure_text e) },
            [some (failure_text e)], some (.apiException e)⟩ := by
  rfl

/-- C4: over any sequence of fetch failures, the notifications sent are
exactly the consecutive deduplication of the failure texts against
`last_message`: a repeated identical text notifies once, a changed text
notifies again. -/
theorem C4_error_dedup (st : LoopState) (es : List String) :
    (run_loop st (es.map FetchResult.failure)).2 =
      (dedup_consecutive st.last_message (es.map failure_text)).map some := by
  induction es generalizing st with
  | nil => rfl
  | cons e rest ih =>
    simp only [List.map_cons, run_loop, main_iter_failure, dedup_consecutive]
    by_cases hc : some (failure_text e) = st.last_message
    · rw [if_pos hc, if_pos hc]
      simpa using ih st
    · rw [if_neg hc, if_neg hc]
      have := ih { st with last_message := some (failure_text e) }
      simp only [List.map_cons] at this ⊢
      simp [this]

/-- Any iteration that ends in the `except` clause leaves `timestamp`
untouched. -/
theorem main_iter_caught_frame (st : LoopState) (f : FetchResult)
    (h : (main_iter st f).caught.isSome) :
    (main_iter st f).state.timestamp = st.timestamp := by
  cases f with
  | failure e => exact (handle_error_facts st [] (.apiException e)).1
  | success response =>
    unfold main_iter at h ⊢
    simp only at h ⊢
    by_cases ht : truthy response = true
    · rw [if_pos ht] at h ⊢
      cases hcr : check_response response with
      | error e =>
        simp only [hcr] at h ⊢
        exact (handle_error_facts st [] e).1
      | ok homeworks =>
        simp only [hcr] at h ⊢
        cases her : (process_homeworks st.status_homework homeworks).errored with
        | some e =>
          simp only [her] at h ⊢
          exact (handle_error_facts _ _ e).1
        | none =>
          simp only [her] at h ⊢
          cases hg : py_get response "current_date" st.timestamp with
          | error e =>
            simp only [hg] at h ⊢
            exact (handle_error_facts _ _ e).1
          | ok ts => simp only [hg] at h; simp at h
    · rw [if_neg ht] at h ⊢
      cases hg : py_get response "current_date" st.timestamp with
      | error e =>
        simp only [hg] at h ⊢
        exact (handle_error_facts st [] e).1
      | ok ts => simp only [hg] at h; simp at h

/-- Any iteration that reaches the end of the `try` block did so on a dict
payload, set `timestamp` to the payload's `current_date` when present (the old
value otherwise), and fully processed the record batch. -/
theorem main_iter_ok_shape (st : LoopState) (response : PyValue)
    (h : (main_iter st (.success response)).caught = Option.none) :
    ∃ entries, response = .dict entries ∧
      (main_iter st (.success response)).state.timestamp =
        (entries.lookup "current_date").getD st.timestamp ∧
      (∀ hws, check_response response = .ok hws →
        (process_homeworks st.status_homework hws).errored = Option.none) := by
  unfold main_iter at h ⊢
  simp only at h ⊢
  by_cases ht : truthy response = true
  · rw [if_pos ht] at h ⊢
    cases hcr : check_response response with
    | error e =>
      simp only [hcr] at h
      rw [(handle_error_facts st [] e).2.2] at h
      cases h
    | ok homeworks =>
      simp only [hcr] at h ⊢
      cases her : (process_homeworks st.status_homework homeworks).errored with
      | some e =>
        simp only [her] at h
        rw [(handle_error_facts _ _ e).2.2] at h
        cases h
      | none =>
        simp only [her] at h ⊢
        cases hg : py_get response "current_date" st.timestamp with
        | error e =>
          simp only [hg] at h
          rw [(handle_error_facts _ _ e).2.2] at h
          cases h
        | ok ts =>
          simp only [hg]
          obtain ⟨entries, rfl⟩ := py_get_ok_dict hg
          refine ⟨entries, rfl, ?_, ?_⟩
          · unfold py_get at hg
            injection hg with hg'
            simp [← hg']
          · intro hws hcr2
            injection hcr2 with hh
            rw [← hh]
            exact her
  · rw [if_neg ht] at h ⊢
    cases hg : py_get response "current_date" st.timestamp with
    | error e =>
      simp only [hg] at h
      rw [(handle_error_facts st [] e).2.2] at h
      cases h
    | ok ts =>
      simp only [hg]
      obtain ⟨entries, rfl⟩ := py_get_ok_dict hg
      refine ⟨entries, rfl, ?_, ?_⟩
      · unfold py_get at hg
        injection hg with hg'
        simp [← hg']
      · intro hws hcr2
        have : truthy (PyValue.dict entries) = true := by
          cases entries with
          | nil => cases hcr2
          | cons p ps => simp [truthy]
        exact absurd this ht

/-- C6: an iteration caught by the `except` clause leaves the cursor exactly
as it was (even when some records of the batch were already processed); an
uncaught iteration ran on a dict payload, fully processed its record batch,
and only then set the cursor to the payload's `current_date` (keeping the old
cursor when that key is absent). -/
theorem C6_cursor_frame (st : LoopState) (f : FetchResult) :
    ((main_iter st f).caught.isSome → (main_iter st f).state.timestamp = st.timestamp) ∧
    ((main_iter st f).caught = Option.none →
      ∃ entries, f = .success (.dict entries) ∧
        (main_iter st f).state.timestamp = (entries.lookup "current_date").getD st.timestamp ∧
        (∀ hws, check_response (.dict entries) = .ok hws →
          (process_homeworks st.status_homework hws).errored = Option.none)) := by
  refine ⟨main_iter_caught_frame st f, ?_⟩
  intro h
  cases f with
  | failure e =>
    rw [show main_iter st (.failure e) = handle_error st [] (.apiException e) from rfl] at h
    rw [(handle_error_facts st [] (.apiException e)).2.2] at h
    cases h
  | success response =>
    obtain ⟨entries, rfl, hts, hproc⟩ := main_iter_ok_shape st response h
    exact ⟨entries, rfl, hts, hproc⟩

/-- Witness for C6 at a concrete input: a failing fetch leaves the cursor at
its previous value. -/
theorem C6_cursor_frame_witness :
    (main_iter ⟨.int 100, Option.none, PyValue.none⟩ (.failure "boom")).state.timestamp =
      .int 100 :=
  (C6_cursor_frame ⟨.int 100, Option.none, PyValue.none⟩ (.failure "boom")).1 (by decide)

/-- Counterexample to C3 as stated: a fully successful cycle (nothing caught)
with server-supplied `current_date = 0` moves the cursor backward from 100
to 0. -/
theorem C3_counterexample :
    main_iter ⟨.int 100, Option.none, PyValue.none⟩
        (.success (.dict [("homeworks", .list []), ("current_date", .int 0)])) =
      ⟨⟨.int 0, Option.none, PyValue.none⟩, [], Option.none⟩ ∧
    (0 : Int) < 100 :=
  ⟨by decide, by decide⟩

/-- C3 as amended: across any iteration the cursor is either left unchanged or
set verbatim to the server-supplied `current_date` of a successful cycle; no
monotonicity check is applied, so it is non-decreasing only if the server's
values are. -/
theorem C3_cursor_update (st : LoopState) (f : FetchResult) :
    (main_iter st f).state.timestamp = st.timestamp ∨
    ∃ entries, f = .success (.dict entries) ∧
      entries.lookup "current_date" = some ((main_iter st f).state.timestamp) := by
  cases hc : (main_iter st f).caught with
  | some e => exact Or.inl (main_iter_caught_frame st f (by simp [hc]))
  | none =>
    cases f with
    | failure e =>
      rw [show main_iter st (.failure e) = handle_error st [] (.apiException e) from rfl] at hc
      rw [(handle_error_facts st [] (.apiException e)).2.2] at hc
      cases hc
    | success response =>
      obtain ⟨entries, rfl, hts, _⟩ := main_iter_ok_shape st response hc
      cases hl : entries.lookup "current_date" with
      | none =>
        left
        rw [hts, hl]
        rfl
      | some v =>
        right
        exact ⟨entries, rfl, by rw [hts, hl]; rfl⟩

/-- Counterexample to C2 as stated: a payload without `current_date` passes
`check_response` (no validation error is raised) and the iteration completes
with the old cursor silently kept. -/
theorem C2_counterexample :
    check_response (.dict [("homeworks", .list [])]) = .ok [] ∧
    main_iter ⟨.int 100, Option.none, PyValue.none⟩
        (.success (.dict [("homeworks", .list [])])) =
      ⟨⟨.int 100, Option.none, PyValue.none⟩, [], Option.none⟩ :=
  ⟨by decide, by decide⟩

/-- C2 as amended: `check_response` never inspects `current_date`; when the
field is absent the payload still validates and the loop keeps the previous
cursor (via `response.get('current_date', timestamp)`). -/
theorem C2_missing_cursor (entries : List (String × PyValue)) (hws : List PyValue)
    (st : LoopState)
    (h1 : entries.lookup "homeworks" = some (.list hws))
    (h2 : entries.lookup "current_date" = Option.none) :
    check_response (.dict entries) = .ok hws ∧
    (main_iter st (.success (.dict entries))).state.timestamp = st.timestamp := by
  constructor
  · simp only [check_response, h1]
  · cases hc : (main_iter st (.success (.dict entries))).caught with
    | some e => exact main_iter_caught_frame st _ (by simp [hc])
    | none =>
      obtain ⟨entries2, heq, hts, _⟩ := main_iter_ok_shape st _ hc
      injection heq with heq'
      subst heq'
      rw [hts, h2]
      rfl

/-- Witness for C2's amended statement at a concrete input. -/
theorem C2_missing_cursor_witness :
    check_response (.dict [("homeworks", .list [])]) = .ok ([] : List PyValue) ∧
    (main_iter ⟨.int 7, Option.none, PyValue.none⟩
        (.success (.dict [("homeworks", .list [])]))).state.timestamp = .int 7 :=
  C2_missing_cursor [("homeworks", .list [])] [] ⟨.int 7, Option.none, PyValue.none⟩
    (by decide) (by decide)

/-- Counterexample to C7 as stated: `check_response` returns only the record
list — its result is identical for two payloads that differ in their
`current_date`, so the validator does not return the new cursor value. -/
theorem C7_counterexample :
    check_response (.dict [("homeworks", .list [.str "x"]), ("current_date", .int 1)]) =
      .ok [.str "x"] ∧
    check_response (.dict [("homeworks", .list [.str "x"]), ("current_date", .int 2)]) =
      check_response (.dict [("homeworks", .list [.str "x"]), ("current_date", .int 1)]) :=
  ⟨by decide, by decide⟩

/-- C7 as amended: on success `check_response` returns exactly the list of
records supplied by the server, in the server's order; the cursor is not part
of its return value (the loop reads `current_date` separately). -/
theorem C7_validator_list (entries : List (String × PyValue)) (hws : List PyValue)
    (h : entries.lookup "homeworks" = some (.list hws)) :
    check_response (.dict entries) = .ok hws := by
  simp only [check_response, h]

/-- Witness for C7's amended statement at a concrete input with two records
(order preserved). -/
theorem C7_validator_list_witness :
    check_response (.dict [("homeworks", .list [.str "a", .str "b"])]) =
      .ok [.str "a", .str "b"] :=
  C7_validator_list [("homeworks", .list [.str "a", .str "b"])] [.str "a", .str "b"]
    (by decide)

end HomeworkBot
